import Mathlib

/-!
Verification of the natural-language specification of the `mcp-excel-service`
repository against its source (`src/mcp-server/server.py`,
`src/mcp-server/config.py`).

The Python source is shallowly embedded: pure helper functions become Lean
functions over an explicit model of Python's JSON-like values (`PyVal`), the
remote Workbook Range Store is abstracted as an oracle record (`Store`), and
the row-lookup-and-update engine is a Lean function that also returns the
ordered list of store calls it issued.  Calendar arithmetic of Python's
`datetime` standard library (an external collaborator of the code) is embedded
by the standard proleptic-Gregorian ordinal arithmetic that `datetime`
implements.
-/

/-! ## Calendar model (Python `datetime.date` arithmetic)

`datetime.strptime`/`datetime(y, m, d)` validate dates against the proleptic
Gregorian calendar; `date.toordinal`-style day numbering (day 1 =
0001-01-01) underlies `datetime` subtraction and `timedelta` addition. -/

structure PDate where
  year : Nat
  month : Nat
  day : Nat
deriving DecidableEq, Repr

/-- Gregorian leap-year rule, as implemented by Python's `datetime`. -/
def isLeap (y : Nat) : Bool :=
  decide ((y % 4 = 0 ∧ ¬ y % 100 = 0) ∨ y % 400 = 0)

/-- The extra day a leap year contributes (0 or 1). -/
def leapBit (y : Nat) : Nat := if isLeap y then 1 else 0

/-- Number of days in month `m` of a year whose leap bit is `l`. -/
def daysInMonthL (l m : Nat) : Nat :=
  match m with
  | 2 => 28 + l
  | 4 | 6 | 9 | 11 => 30
  | _ => 31

/-- Number of days in a month (`datetime`'s `_days_in_month`). -/
def daysInMonth (y m : Nat) : Nat := daysInMonthL (leapBit y) m

/-- Days before month `m` in a year whose leap bit is `l` (`datetime`'s
`_DAYS_BEFORE_MONTH` table plus the leap adjustment for months past
February). -/
def daysBeforeMonthL (l m : Nat) : Nat :=
  match m with
  | 2 => 31
  | 3 => 59 + l | 4 => 90 + l | 5 => 120 + l | 6 => 151 + l | 7 => 181 + l
  | 8 => 212 + l | 9 => 243 + l | 10 => 273 + l | 11 => 304 + l | 12 => 334 + l
  | _ => 0

/-- Days in year `y` strictly before month `m` (`datetime`'s
`_days_before_month`). -/
def daysBeforeMonth (y m : Nat) : Nat :=
  daysBeforeMonthL (leapBit y) m

/-- Days strictly before January 1st of year `y`, counting from day 1 =
0001-01-01 (`datetime`'s `_days_before_year`). -/
def daysBeforeYear (y : Nat) : Nat :=
  365 * (y - 1) + (y - 1) / 4 - (y - 1) / 100 + (y - 1) / 400

/-- Proleptic Gregorian ordinal of a date (`date.toordinal`). -/
def toOrdinal (dt : PDate) : Nat :=
  daysBeforeYear dt.year + daysBeforeMonth dt.year dt.month + dt.day

/-- Recover (month, day-of-month) from a 1-based day-of-year in a year whose
leap bit is `l` (the month search of `datetime`'s `_ord2ymd`). -/
def monthDayFromDoyL (l doy : Nat) : Nat × Nat :=
  if doy ≤ 31 then (1, doy)
  else if doy ≤ 59 + l then (2, doy - 31)
  else if doy ≤ 90 + l then (3, doy - (59 + l))
  else if doy ≤ 120 + l then (4, doy - (90 + l))
  else if doy ≤ 151 + l then (5, doy - (120 + l))
  else if doy ≤ 181 + l then (6, doy - (151 + l))
  else if doy ≤ 212 + l then (7, doy - (181 + l))
  else if doy ≤ 243 + l then (8, doy - (212 + l))
  else if doy ≤ 273 + l then (9, doy - (243 + l))
  else if doy ≤ 304 + l then (10, doy - (273 + l))
  else if doy ≤ 334 + l then (11, doy - (304 + l))
  else (12, doy - (334 + l))

/-- Recover (month, day) from a 1-based day-of-year of year `y`. -/
def monthDayFromDoy (y doy : Nat) : PDate :=
  let p := monthDayFromDoyL (leapBit y) doy
  ⟨y, p.1, p.2⟩

/-- Inverse of `toOrdinal` (`date.fromordinal`, i.e. `datetime`'s `_ord2ymd`:
400-year / 100-year / 4-year / 1-year block decomposition, with the special
case for December 31st of a leap year). -/
def fromOrdinal (n : Nat) : PDate :=
  let n0 := n - 1
  let n400 := n0 / 146097
  let r1 := n0 % 146097
  let n100 := r1 / 36524
  let r2 := r1 % 36524
  let n4 := r2 / 1461
  let r3 := r2 % 1461
  let n1 := r3 / 365
  let r4 := r3 % 365
  if n1 = 4 ∨ n100 = 4 then
    ⟨400 * n400 + 100 * n100 + 4 * n4 + n1, 12, 31⟩
  else
    monthDayFromDoy (400 * n400 + 100 * n100 + 4 * n4 + n1 + 1) (r4 + 1)

/-! ## `parse_date_string` (server.py lines 62-89)

`datetime.strptime` applied to the five formats
`%m/%d/%Y`, `%Y-%m-%d`, `%d-%m-%Y`, `%m-%d-%Y`, `%Y/%m/%d` in order, on the
stripped input; the first format that fully matches and yields a valid
calendar date wins.  The `strptime` field patterns accept 1-2 digits for
`%m`/`%d` (values 1-12 / 1-31) and exactly 4 digits for `%Y`; the constructed
date must be a valid proleptic Gregorian date. -/

/-- Leading and trailing whitespace removal on a character list (Python
`str.strip()`, `String.trim`). -/
def charTrim (cs : List Char) : List Char :=
  ((cs.dropWhile Char.isWhitespace).reverse.dropWhile Char.isWhitespace).reverse

/-- Split a character list on a separator character (`String.splitOn` with a
one-character separator): always returns one more piece than there are
separators. -/
def splitOnChar (sep : Char) : List Char → List (List Char)
  | [] => [[]]
  | c :: cs =>
    if c == sep then [] :: splitOnChar sep cs
    else
      match splitOnChar sep cs with
      | [] => [[c]]
      | h :: t => (c :: h) :: t

/-- Digit run to the natural number it denotes. -/
def digitsVal (cs : List Char) : Nat :=
  cs.foldl (fun a c => 10 * a + (c.toNat - 48)) 0

/-- A `strptime` numeric field: all-digit run of length in `[1, maxLen]`
whose value lies in `[lo, hi]`. -/
def fieldNat? (maxLen lo hi : Nat) (cs : List Char) : Option Nat :=
  if cs ≠ [] ∧ cs.length ≤ maxLen ∧ cs.all Char.isDigit then
    if lo ≤ digitsVal cs ∧ digitsVal cs ≤ hi then some (digitsVal cs) else none
  else none

/-- A `strptime` `%Y` field: exactly 4 digits. -/
def yearField? (cs : List Char) : Option Nat :=
  if cs.length = 4 ∧ cs.all Char.isDigit then some (digitsVal cs) else none

/-- `datetime(year, month, day)` construction: validates the calendar date
(year at least 1 — `datetime.MINYEAR`). -/
def mkDate? (y m d : Nat) : Option PDate :=
  if 1 ≤ y ∧ 1 ≤ m ∧ m ≤ 12 ∧ 1 ≤ d ∧ d ≤ daysInMonth y m then
    some ⟨y, m, d⟩
  else none

/-- `strptime` against a month/day/year format with the given separator. -/
def tryFormatMDY (sep : Char) (cs : List Char) : Option PDate :=
  match splitOnChar sep cs with
  | [ms, ds, ys] =>
    match fieldNat? 2 1 12 ms, fieldNat? 2 1 31 ds, yearField? ys with
    | some m, some d, some y => mkDate? y m d
    | _, _, _ => none
  | _ => none

/-- `strptime` against a year/month/day format with the given separator. -/
def tryFormatYMD (sep : Char) (cs : List Char) : Option PDate :=
  match splitOnChar sep cs with
  | [ys, ms, ds] =>
    match yearField? ys, fieldNat? 2 1 12 ms, fieldNat? 2 1 31 ds with
    | some y, some m, some d => mkDate? y m d
    | _, _, _ => none
  | _ => none

/-- `strptime` against a day/month/year format with the given separator. -/
def tryFormatDMY (sep : Char) (cs : List Char) : Option PDate :=
  match splitOnChar sep cs with
  | [ds, ms, ys] =>
    match fieldNat? 2 1 31 ds, fieldNat? 2 1 12 ms, yearField? ys with
    | some d, some m, some y => mkDate? y m d
    | _, _, _ => none
  | _ => none

/-- `parse_date_string` (server.py:62): try the five formats in their listed
order on the stripped input; first success wins, no success gives `none`. -/
def parse_date_string (value : String) : Option PDate :=
  let v := charTrim value.data
  (tryFormatMDY '/' v) <|> (tryFormatYMD '-' v) <|> (tryFormatDMY '-' v) <|>
    (tryFormatMDY '-' v) <|> (tryFormatYMD '/' v)

/-! ## Excel serial conversion (server.py lines 92-122) -/

/-- `toOrdinal ⟨1899, 12, 30⟩`: the ordinal of the Excel epoch
`datetime(1899, 12, 30)` used by `date_to_excel_serial`. -/
def excelEpochOrdinal : Nat := toOrdinal ⟨1899, 12, 30⟩

/-- `date_to_excel_serial` (server.py:92): `(dt - datetime(1899, 12, 30)).days`
for a date `dt` (midnight time component, so the day delta is exact). -/
def date_to_excel_serial (dt : PDate) : Int :=
  (toOrdinal dt : Int) - (excelEpochOrdinal : Int)

/-- `excel_serial_to_date` (server.py:111):
`datetime(1899, 12, 30) + timedelta(days=serial)` for an integer serial
(the code applies `int(serial)` first; the integer argument here is that
truncated value). -/
def excel_serial_to_date (serial : Int) : PDate :=
  fromOrdinal ((excelEpochOrdinal : Int) + serial).toNat

/-! ## `is_likely_date_string` (server.py lines 125-143)

Anchored regex shapes `\d{1,2}/\d{1,2}/\d{4}`, `\d{4}-\d{2}-\d{2}`,
`\d{2}-\d{2}-\d{4}`, `\d{4}/\d{2}/\d{2}` applied to the stripped value. -/

/-- An all-digit run whose length lies in `[lo, hi]`. -/
def digitRun (lo hi : Nat) (cs : List Char) : Bool :=
  decide (lo ≤ cs.length) && decide (cs.length ≤ hi) && cs.all Char.isDigit

/-- Three digit runs with the given length bounds, joined by `sep`. -/
def shapeMatch (sep : Char) (a b c : Nat × Nat) (cs : List Char) : Bool :=
  match splitOnChar sep cs with
  | [x, y, z] => digitRun a.1 a.2 x && digitRun b.1 b.2 y && digitRun c.1 c.2 z
  | _ => false

/-- `is_likely_date_string` (server.py:125). -/
def is_likely_date_string (value : String) : Bool :=
  let v := charTrim value.data
  shapeMatch '/' (1, 2) (1, 2) (4, 4) v ||
  shapeMatch '-' (4, 4) (2, 2) (2, 2) v ||
  shapeMatch '-' (2, 2) (2, 2) (4, 4) v ||
  shapeMatch '/' (4, 4) (2, 2) (2, 2) v

/-! ## Python value model

JSON-decoded values flowing through the server: `None`, booleans, integers,
floats and strings.  Floats are modelled as rationals (the float values the
claims exercise are small integers, where this is exact). -/

inductive PyVal where
  | vNone : PyVal
  | vBool : Bool → PyVal
  | vInt : Int → PyVal
  | vFloat : ℚ → PyVal
  | vStr : String → PyVal
deriving DecidableEq, Repr

/-- Python truthiness (`bool(v)`) for the modelled values. -/
def pyTruthy : PyVal → Bool
  | .vNone => false
  | .vBool b => b
  | .vInt n => decide (n ≠ 0)
  | .vFloat q => decide (q ≠ 0)
  | .vStr s => decide (s ≠ "")

/-- Python `str()` of a float: integral floats render as `"<n>.0"`.
(Non-integral floats use Python's shortest round-trip decimal; that case is
not exercised by any claim and is rendered here via the rational's own
string form.) -/
def pyFloatStr (q : ℚ) : String :=
  if q.den = 1 then toString q.num ++ ".0" else toString q

/-- Python `str()` of a modelled value. -/
def pyStr : PyVal → String
  | .vNone => "None"
  | .vBool b => if b then "True" else "False"
  | .vInt n => toString n
  | .vFloat q => pyFloatStr q
  | .vStr s => s

/-- Python `float(s)` on a string: stripped input, optional sign, digits with
an optional decimal point (at least one digit overall), optional
`e`/`E`-exponent.  (`inf`/`nan` spellings and digit-group underscores are not
modelled; no claim exercises them.) -/
def strToFloat (s : String) : Option ℚ :=
  let cs := charTrim s.data
  let sgncs : ℚ × List Char :=
    match cs with
    | '-' :: r => (-1, r)
    | '+' :: r => (1, r)
    | _ => (1, cs)
  let sgn := sgncs.1
  let ip := sgncs.2.span Char.isDigit
  let fpcs : List Char × List Char :=
    match ip.2 with
    | '.' :: r => r.span Char.isDigit
    | _ => ([], ip.2)
  if ip.1.isEmpty && fpcs.1.isEmpty then none
  else
    let mant : ℚ := sgn * ((digitsVal ip.1 : ℚ) +
      (digitsVal fpcs.1 : ℚ) / ((10 : ℚ) ^ fpcs.1.length))
    match fpcs.2 with
    | [] => some mant
    | e :: r =>
      if e = 'e' ∨ e = 'E' then
        let esgnr : Bool × List Char :=
          match r with
          | '-' :: rr => (true, rr)
          | '+' :: rr => (false, rr)
          | _ => (false, r)
        let ed := esgnr.2.span Char.isDigit
        if ed.1.isEmpty || !ed.2.isEmpty then none
        else if esgnr.1 then some (mant / (10 : ℚ) ^ digitsVal ed.1)
        else some (mant * (10 : ℚ) ^ digitsVal ed.1)
      else none

/-- Python `float(v)` coercion; `none` models the raised
`ValueError`/`TypeError`. -/
def pyFloat : PyVal → Option ℚ
  | .vNone => none
  | .vBool b => some (if b then 1 else 0)
  | .vInt n => some (n : ℚ)
  | .vFloat q => some q
  | .vStr s => strToFloat s

/-- Python `int()` on a float: truncation toward zero. -/
def pyTrunc (q : ℚ) : Int :=
  Int.tdiv q.num (q.den : Int)

/-! ## `compare_values_for_search` (server.py lines 146-195) -/

/-- `compare_values_for_search` (server.py:146): `None` never matches; exact
string-form equality matches; else, a date-looking reference that parses is
compared by Excel serial against a numeric cell in `[1, 2958465]`; else both
sides are compared as numbers when both coerce. -/
def compare_values_for_search (cell_value : PyVal) (reference_value : String) : Bool :=
  if cell_value = .vNone then false
  else if pyStr cell_value == reference_value then true
  else
    let dateMatch : Bool :=
      if is_likely_date_string reference_value then
        match parse_date_string reference_value with
        | some parsedDate =>
          let referenceSerial := date_to_excel_serial parsedDate
          match pyFloat cell_value with
          | some cellSerial =>
            decide ((1 : ℚ) ≤ cellSerial) && decide (cellSerial ≤ (2958465 : ℚ)) &&
              (pyTrunc cellSerial == referenceSerial)
          | none => false
        | none => false
      else false
    if dateMatch then true
    else
      match pyFloat cell_value, strToFloat reference_value with
      | some cellNum, some refNum => cellNum == refNum
      | _, _ => false

/-! ## Strategy name mapping (config.py lines 30-216) -/

/-- `STRATEGY_MAPPING` (config.py:30): the verbose-name → short-code table, in
source order.  All keys are lowercase and distinct, so association-list lookup
models the Python dict lookup exactly. -/
def STRATEGY_MAPPING : List (String × String) := [
  ("covered call", "CC"), ("cc", "CC"),
  ("naked put", "NP"), ("np", "NP"),
  ("cash-secured put", "CSP"), ("cash secured put", "CSP"), ("csp", "CSP"),
  ("iron condor", "IC"), ("ic", "IC"), ("condor", "IC"),
  ("iron butterfly", "IB"), ("ib", "IB"), ("butterfly", "IB"),
  ("vertical put credit spread", "VPCS"), ("put credit spread", "VPCS"),
  ("vertical put credit", "VPCS"), ("vertical put spread", "VPCS"),
  ("put vertical credit", "VPCS"), ("put vertical", "VPCS"),
  ("vertical put", "VPCS"), ("pcs", "VPCS"), ("vpcs", "VPCS"),
  ("vertical put debit spread", "VPDS"), ("put debit spread", "VPDS"),
  ("vertical put debit", "VPDS"), ("pds", "VPDS"), ("vpds", "VPDS"),
  ("vertical call credit spread", "VCCS"), ("call credit spread", "VCCS"),
  ("vertical call credit", "VCCS"), ("vertical call spread", "VCCS"),
  ("call vertical credit", "VCCS"), ("call vertical", "VCCS"),
  ("vertical call", "VCCS"), ("ccs", "VCCS"), ("vccs", "VCCS"),
  ("short straddle", "Straddle"), ("straddle", "Straddle"),
  ("short strangle", "Strangle"), ("strangle", "Strangle"),
  ("jade lizard", "JadeLizard"), ("jadelizard", "JadeLizard"), ("jade", "JadeLizard"),
  ("reverse jade lizard", "RJade"), ("reverse jade", "RJade"), ("rjade", "RJade"),
  ("zero extrinsic back ratio", "Zebra"), ("zebra", "Zebra"),
  ("lt1-1-1", "1-1-1"), ("1-1-1", "1-1-1"), ("111", "1-1-1"),
  ("lt1-1-2", "1-1-2"), ("1-1-2", "1-1-2"), ("112", "1-1-2"),
  ("rolling diagonal puts", "RDP"), ("rolling diagonal", "RDP"),
  ("diagonal puts", "RDP"), ("rdp", "RDP"),
  ("short leaps", "LEAPPut"), ("leap put", "LEAPPut"), ("leaps put", "LEAPPut"),
  ("leapput", "LEAPPut"),
  ("leaps call spread", "LeapCS"), ("leap call spread", "LeapCS"), ("leapcs", "LeapCS"),
  ("put butterfly", "PButterfly"), ("pbutterfly", "PButterfly"),
  ("call butterfly", "CButterfly"), ("cbutterfly", "CButterfly"),
  ("vix uptrend", "VIX"), ("vix", "VIX")]

/-- `set(STRATEGY_MAPPING.values())` (config.py:201): the canonical short
codes.  The codes' lowercase forms are pairwise distinct, so at most one code
can match the scan in `map_strategy_name` and Python's arbitrary set iteration
order is irrelevant; first-occurrence deduplication represents the set. -/
def SHORT_CODES : List String := (STRATEGY_MAPPING.map Prod.snd).dedup

/-- `STRATEGY_KEYWORDS` (config.py:150): ordered keyword-conjunction fallback
rules, most specific first. -/
def STRATEGY_KEYWORDS : List (List String × String) := [
  (["put", "credit", "spread"], "VPCS"),
  (["put", "debit", "spread"], "VPDS"),
  (["call", "credit", "spread"], "VCCS"),
  (["call", "debit", "spread"], "VCDS"),
  (["iron", "condor"], "IC"),
  (["iron", "butterfly"], "IB"),
  (["put", "butterfly"], "PButterfly"),
  (["call", "butterfly"], "CButterfly"),
  (["jade", "lizard"], "JadeLizard"),
  (["reverse", "jade"], "RJade"),
  (["rolling", "diagonal"], "RDP"),
  (["diagonal", "put"], "RDP"),
  (["cash", "secured"], "CSP"),
  (["covered", "call"], "CC"),
  (["naked", "put"], "NP"),
  (["leap", "call"], "LeapCS"),
  (["leap", "put"], "LEAPPut"),
  (["put", "vertical"], "VPCS"),
  (["vertical", "put"], "VPCS"),
  (["call", "vertical"], "VCCS"),
  (["vertical", "call"], "VCCS"),
  (["straddle"], "Straddle"),
  (["strangle"], "Strangle"),
  (["condor"], "IC"),
  (["zebra"], "Zebra")]

/-- Whether the character list starts with the given pattern. -/
def charsStartWith : List Char → List Char → Bool
  | _, [] => true
  | [], _ :: _ => false
  | c :: cs, p :: ps => c == p && charsStartWith cs ps

/-- Whether `sub` occurs as a contiguous run inside the character list. -/
def charsContain : List Char → List Char → Bool
  | [], sub => sub.isEmpty
  | c :: cs, sub => charsStartWith (c :: cs) sub || charsContain cs sub

/-- Python's `sub in hay` substring test on strings. -/
def strContains (hay sub : String) : Bool := charsContain hay.data sub.data

/-- `map_strategy_name` (config.py:182): empty input returned unchanged;
else the lowercased stripped key is checked against the short codes, then the
exact mapping table, then the ordered keyword rules; no match returns the
original input. -/
def map_strategy_name (strategy : String) : String :=
  if strategy = "" then strategy
  else
    let lookup_key := charTrim (strategy.data.map Char.toLower)
    match SHORT_CODES.find? (fun code => lookup_key == code.data.map Char.toLower) with
    | some code => code
    | none =>
      match STRATEGY_MAPPING.find? (fun p => p.1.data == lookup_key) with
      | some p => p.2
      | none =>
        match STRATEGY_KEYWORDS.find?
            (fun r => r.1.all (fun kw => charsContain lookup_key kw.data)) with
        | some r => r.2
        | none => strategy

/-! ## The row-lookup-and-update engine (server.py lines 529-689)

`_update_row_by_lookup_impl` interacts with the Workbook Range Store through:
URL/file resolution, the `usedRange` query, one range read of the search
column, and one single-cell `PATCH` per (column, value) pair.  The store is
abstracted as an oracle record, and the engine returns the ordered list of
store calls it issued alongside its outcome dict. -/

/-- One remote call against the Workbook Range Store (including document
resolution, which the code performs through the same Graph API). -/
inductive StoreCall where
  | resolve : StoreCall
  | usedRange : StoreCall
  | readRange : String → StoreCall
  | writeCell : String → PyVal → StoreCall
deriving DecidableEq, Repr

/-- Oracle for the Workbook Range Store: what each remote call would return.
`resolveResult = some msg` / `Except.error msg` model non-2xx responses with
their error message; `writeResult addr v = none` models a 200 on the PATCH of
`addr` with value `v`. -/
structure Store where
  resolveResult : Option String
  usedRangeResult : Except String Nat
  readResult : Except String (List (List PyVal))
  writeResult : String → PyVal → Option String

/-- The structured result dicts `_update_row_by_lookup_impl` can return,
distinguished by shape: plain `status="error"` dicts, the not-found
diagnostic dict (also `status="error"`, but carrying `searched_rows` and
`sample_values`), `status="partial_error"`, and `status="success"`. -/
inductive Outcome where
  | errorMsg : String → Outcome
  | notFound : String → Nat → List String → Outcome
  | partialError : String → List String → List (String × String) → Outcome
  | success : String → Nat → Int → List String → Outcome
deriving DecidableEq, Repr

/-- The length-mismatch caller-error message (server.py:548). -/
def mismatchMsg (ncols nvals : Nat) : String :=
  "Mismatch: " ++ toString ncols ++ " columns but " ++ toString nvals ++
    " values provided. They must be equal."

/-- `row[0] if row else None` (server.py:618). -/
def cellOf (row : List PyVal) : PyVal := row.headD .vNone

/-- `str(row[0]) if row and row[0] is not None else "empty"` (server.py:627). -/
def sampleOf (row : List PyVal) : String :=
  match row with
  | [] => "empty"
  | v :: _ => if v = .vNone then "empty" else pyStr v

/-- The scan of server.py:616-623: first (1-based) row of the search column
whose cell matches the reference under `compare_values_for_search`. -/
def findRow (column_values : List (List PyVal)) (reference_value : String) : Option Nat :=
  (column_values.findIdx? fun row => compare_values_for_search (cellOf row) reference_value).map
    (· + 1)

/-- `f"{col.upper()}{target_row}"` (server.py:646). -/
def cellAddr (col : String) (target_row : Int) : String :=
  String.mk (col.data.map Char.toUpper) ++ toString target_row

/-- The per-cell update loop of server.py:641-667: one independent PATCH per
(column, value) pair, accumulating updated addresses, per-cell failures, and
the issued write calls, never aborting early. -/
def writeLoop (write : String → PyVal → Option String) (target_row : Int) :
    List (String × PyVal) → List String × List (String × String) × List StoreCall
  | [] => ([], [], [])
  | (col, v) :: rest =>
    let addr := cellAddr col target_row
    let r := writeLoop write target_row rest
    match write addr v with
    | none => (addr :: r.1, r.2.1, .writeCell addr v :: r.2.2)
    | some msg => (r.1, (addr, msg) :: r.2.1, .writeCell addr v :: r.2.2)

/-- `_update_row_by_lookup_impl` (server.py:529): length precondition, URL
resolution, used-range query, search-column read, scan, then the per-cell
update loop; paired with the ordered list of store calls issued. -/
def update_row_by_lookup_impl (store : Store) (search_column : String)
    (reference_value : String) (target_columns_list : List String)
    (values_list : List PyVal) (row_offset : Int) : Outcome × List StoreCall :=
  if target_columns_list.length ≠ values_list.length then
    (.errorMsg (mismatchMsg target_columns_list.length values_list.length), [])
  else
    match store.resolveResult with
    | some msg => (.errorMsg msg, [.resolve])
    | none =>
      match store.usedRangeResult with
      | .error msg =>
        (.errorMsg ("Failed to get used range: " ++ msg), [.resolve, .usedRange])
      | .ok row_count =>
        if row_count = 0 then
          (.errorMsg "Worksheet is empty", [.resolve, .usedRange])
        else
          let search_range :=
            search_column ++ "1:" ++ search_column ++ toString row_count
          match store.readResult with
          | .error msg =>
            (.errorMsg ("Failed to read search column: " ++ msg),
              [.resolve, .usedRange, .readRange search_range])
          | .ok column_values =>
            let base : List StoreCall := [.resolve, .usedRange, .readRange search_range]
            match findRow column_values reference_value with
            | none =>
              (.notFound
                ("Reference value '" ++ reference_value ++ "' not found in column " ++
                  search_column)
                row_count ((column_values.take 10).map sampleOf), base)
            | some found_row =>
              let target_row : Int := (found_row : Int) + row_offset
              let r := writeLoop store.writeResult target_row
                (target_columns_list.zip values_list)
              if r.2.1.isEmpty then
                (.success
                  ("Successfully updated " ++ toString values_list.length ++
                    " cells in row " ++ toString target_row)
                  found_row target_row r.1, base ++ r.2.2)
              else
                (.partialError "Some cells failed to update" r.1 r.2.1, base ++ r.2.2)

/-- Is a store call a cell write? -/
def isWrite : StoreCall → Bool
  | .writeCell _ _ => true
  | _ => false

/-- The updated-cell addresses the loop is expected to collect: one entry per
pair whose write succeeds, in order. -/
def expectedUpdated (write : String → PyVal → Option String) (target_row : Int)
    (pairs : List (String × PyVal)) : List String :=
  pairs.filterMap fun p =>
    match write (cellAddr p.1 target_row) p.2 with
    | none => some (cellAddr p.1 target_row)
    | some _ => none

/-- The per-cell failures the loop is expected to collect: one
`(address, message)` entry per pair whose write fails, in order. -/
def expectedErrors (write : String → PyVal → Option String) (target_row : Int)
    (pairs : List (String × PyVal)) : List (String × String) :=
  pairs.filterMap fun p =>
    (write (cellAddr p.1 target_row) p.2).map fun msg => (cellAddr p.1 target_row, msg)

/-! ## Trade batch processing (server.py lines 885-1268)

`excel_log_trades` parses the JSON batch, sorts the trades chronologically,
and for each trade maps the strategy, resolves the expired status, builds the
13-column value array and drives `_update_row_by_lookup_impl` at offset
`1 + i`.  A trade is an unordered field bag of JSON values, modelled as an
association list with distinct keys (`dict.get` is first-match lookup). -/

/-- A raw trade object: field name to JSON value. -/
def Trade : Type := List (String × PyVal)

/-- Python `trade.get(key, dflt)`. -/
def tget (t : Trade) (key : String) (dflt : PyVal) : PyVal :=
  match List.find? (fun p => p.1 == key) t with
  | some p => p.2
  | none => dflt

/-- Python equality test `v == 0` (an `int` zero): numeric cross-type
equality; booleans compare as 0/1; strings and `None` never equal a number. -/
def pyEqZero : PyVal → Bool
  | .vInt n => n == 0
  | .vFloat q => q == 0
  | .vBool b => !b
  | _ => false

/-- Python equality test `v == ""`. -/
def pyEqEmptyStr : PyVal → Bool
  | .vStr s => s == ""
  | _ => false

/-- `expired` resolution (server.py:1142-1147): a string value is compared
lowercased against `"true"`/`"1"`/`"yes"`; any other value goes through
`bool(...)`. -/
def isExpiredOf (expired_raw : PyVal) : Bool :=
  match expired_raw with
  | .vStr s =>
    let l := s.data.map Char.toLower
    l == "true".data || l == "1".data || l == "yes".data
  | v => pyTruthy v

/-- `map_strategy_name` applied to an arbitrary JSON value
(server.py:1131-1132 via config.py:182): strings are mapped; falsy
non-strings are returned unchanged (`if not strategy: return strategy`);
truthy non-strings raise `AttributeError` on `.lower()`, modelled as `none`. -/
def map_strategy_val : PyVal → Option PyVal
  | .vStr s => some (.vStr (map_strategy_name s))
  | v => if pyTruthy v then none else some v

/-- The per-trade row construction of server.py:1129-1185: strategy mapping,
expired-status resolution with close-field auto-fill, and the 13-entry value
array in `COLUMN_ORDER` (C, E, F, G, I, J, K, L, N, O, Q, R, T).  `none`
models the exception raised on a truthy non-string `strategy` value. -/
def processTrade (t : Trade) : Option (List PyVal) :=
  match map_strategy_val (tget t "strategy" (.vStr "")) with
  | none => none
  | some mapped_strategy =>
  let open_date := tget t "open_date" (tget t "date" (.vStr ""))
  let open_time := tget t "open_time" (tget t "time" (.vStr ""))
  let is_expired := isExpiredOf (tget t "expired" (.vBool false))
  let close_date := tget t "close_date" (.vStr "")
  let close_time := tget t "close_time" (.vStr "")
  let debit := tget t "debit" (.vStr "")
  let resolved :=
    if pyTruthy close_date then (close_date, close_time, debit)
    else if is_expired then
      (open_date, (if pyTruthy close_time then close_time else .vStr "4:00 PM"),
        (if pyEqEmptyStr debit then .vInt 0 else debit))
    else if pyEqZero debit then
      (open_date, (if pyTruthy close_time then close_time else .vStr "4:00 PM"), debit)
    else (close_date, close_time, debit)
  some [open_date, open_time, resolved.1, resolved.2.1, mapped_strategy,
    tget t "credit" (.vStr ""), resolved.2.2, tget t "contracts" (.vStr ""),
    tget t "open_fees" (tget t "fees" (.vStr "")), tget t "close_fees" (.vStr ""),
    tget t "sold_call_strike" (.vStr ""), tget t "sold_put_strike" (.vStr ""),
    tget t "width" (.vStr "")]

/-! ### Chronological sort key (server.py lines 988-1026)

`parse_trade_datetime` returns a `(datetime, time)` pair; unparsable or
falsy components default to `datetime.max` / `datetime.max.time()`.  The
pair is order-embedded into `Nat × Nat`: a parsed date at midnight maps to
twice its ordinal, `datetime.max` (which has the maximal time-of-day) to
`2 * toOrdinal 9999-12-31 + 1`; a parsed time (whole seconds) maps to twice
its second count, `time.max` (`23:59:59.999999`) to `2 * 86399 + 1`. -/

/-- A 1-2 digit run whose value lies in `[lo, hi]`, consumed from the front. -/
def digits12 (cs : List Char) (lo hi : Nat) : Option (Nat × List Char) :=
  let p := cs.span Char.isDigit
  if p.1.length = 0 ∨ 2 < p.1.length then none
  else if lo ≤ digitsVal p.1 ∧ digitsVal p.1 ≤ hi then some (digitsVal p.1, p.2)
  else none

/-- Consume one expected literal character. -/
def expectChar (c : Char) : List Char → Option (List Char)
  | x :: xs => if x == c then some xs else none
  | [] => none

/-- Consume a nonempty whitespace run (`strptime` compiles a literal space in
the format to `\s+`). -/
def expectWs (cs : List Char) : Option (List Char) :=
  let p := cs.span Char.isWhitespace
  if p.1.isEmpty then none else some p.2

/-- Consume an `AM`/`PM` marker (the input has been uppercased), returning
whether it is `PM`. -/
def expectAMPM : List Char → Option (Bool × List Char)
  | 'A' :: 'M' :: r => some (false, r)
  | 'P' :: 'M' :: r => some (true, r)
  | _ => none

/-- 12-hour to 24-hour conversion (`12 AM` is 0, `12 PM` is 12). -/
def hour24 (h : Nat) (pm : Bool) : Nat := h % 12 + (if pm then 12 else 0)

/-- `strptime` format `"%I:%M %p"` (and `"%I:%M%p"` when `sp` is false),
producing seconds since midnight. -/
def tryTimeIMp (sp : Bool) (cs : List Char) : Option Nat :=
  match digits12 cs 1 12 with
  | none => none
  | some hr =>
    match expectChar ':' hr.2 with
    | none => none
    | some r2 =>
      match digits12 r2 0 59 with
      | none => none
      | some mr =>
        match (if sp then expectWs mr.2 else some mr.2) with
        | none => none
        | some r4 =>
          match expectAMPM r4 with
          | none => none
          | some pr =>
            if pr.2.isEmpty then some (hour24 hr.1 pr.1 * 3600 + mr.1 * 60) else none

/-- `strptime` format `"%H:%M"`. -/
def tryTimeHM (cs : List Char) : Option Nat :=
  match digits12 cs 0 23 with
  | none => none
  | some hr =>
    match expectChar ':' hr.2 with
    | none => none
    | some r2 =>
      match digits12 r2 0 59 with
      | none => none
      | some mr =>
        if mr.2.isEmpty then some (hr.1 * 3600 + mr.1 * 60) else none

/-- `strptime` format `"%H:%M:%S"`. -/
def tryTimeHMS (cs : List Char) : Option Nat :=
  match digits12 cs 0 23 with
  | none => none
  | some hr =>
    match expectChar ':' hr.2 with
    | none => none
    | some r2 =>
      match digits12 r2 0 59 with
      | none => none
      | some mr =>
        match expectChar ':' mr.2 with
        | none => none
        | some r4 =>
          match digits12 r4 0 59 with
          | none => none
          | some sr =>
            if sr.2.isEmpty then some (hr.1 * 3600 + mr.1 * 60 + sr.1) else none

/-- `strptime` format `"%I:%M:%S %p"`. -/
def tryTimeIMSp (cs : List Char) : Option Nat :=
  match digits12 cs 1 12 with
  | none => none
  | some hr =>
    match expectChar ':' hr.2 with
    | none => none
    | some r2 =>
      match digits12 r2 0 59 with
      | none => none
      | some mr =>
        match expectChar ':' mr.2 with
        | none => none
        | some r4 =>
          match digits12 r4 0 59 with
          | none => none
          | some sr =>
            match expectWs sr.2 with
            | none => none
            | some r6 =>
              match expectAMPM r6 with
              | none => none
              | some pr =>
                if pr.2.isEmpty then
                  some (hour24 hr.1 pr.1 * 3600 + mr.1 * 60 + sr.1)
                else none

/-- The time-format list of server.py:1006-1020, tried in order on
`open_time_str.strip().upper()`: `%I:%M %p`, `%I:%M%p`, `%H:%M`, `%H:%M:%S`,
`%I:%M:%S %p`; first success wins. -/
def parse_time_string (value : String) : Option Nat :=
  let cs := (charTrim value.data).map Char.toUpper
  (tryTimeIMp true cs) <|> (tryTimeIMp false cs) <|> (tryTimeHM cs) <|>
    (tryTimeHMS cs) <|> (tryTimeIMSp cs)

/-- Order embedding of `datetime.max` (9999-12-31 23:59:59.999999): strictly
above every parsed date, which sits at midnight. -/
def maxDateKey : Nat := 2 * toOrdinal ⟨9999, 12, 31⟩ + 1

/-- Order embedding of `datetime.max.time()` (23:59:59.999999): strictly
above every parsed whole-second time. -/
def maxTimeKey : Nat := 2 * 86399 + 1

/-- The date component of the sort key (server.py:996-1001): falsy values
keep `datetime.max`; strings are parsed, an unparsable string keeps
`datetime.max`; a truthy non-string raises in `value.strip()` (`none`). -/
def dateKeyOfVal (v : PyVal) : Option Nat :=
  if pyTruthy v = false then some maxDateKey
  else
    match v with
    | .vStr s =>
      some (match parse_date_string s with
        | some dt => 2 * toOrdinal dt
        | none => maxDateKey)
    | _ => none

/-- The time component of the sort key (server.py:1003-1020): same fallback
structure as the date component. -/
def timeKeyOfVal (v : PyVal) : Option Nat :=
  if pyTruthy v = false then some maxTimeKey
  else
    match v with
    | .vStr s =>
      some (match parse_time_string s with
        | some sec => 2 * sec
        | none => maxTimeKey)
    | _ => none

/-- `parse_trade_datetime` (server.py:988): the `(date, time)` sort key of a
trade; `none` models the exception on a truthy non-string component. -/
def parse_trade_datetime (t : Trade) : Option (Nat × Nat) :=
  match dateKeyOfVal (tget t "open_date" (tget t "date" (.vStr ""))),
      timeKeyOfVal (tget t "open_time" (tget t "time" (.vStr ""))) with
  | some dk, some tk => some (dk, tk)
  | _, _ => none

/-- Total sort key used for the model sort (defaulted where the code would
raise; the defaulted value is never relevant under the no-exception
hypothesis). -/
def sortKeyD (t : Trade) : Nat × Nat :=
  (parse_trade_datetime t).getD (maxDateKey, maxTimeKey)

/-- Lexicographic comparison of the Python `(datetime, time)` key tuples. -/
def keyLe (a b : Nat × Nat) : Bool :=
  decide (a.1 < b.1) || (decide (a.1 = b.1) && decide (a.2 ≤ b.2))

/-- The trade ordering used by `trades_list.sort(key=parse_trade_datetime)`. -/
def tradeLe (a b : Trade) : Bool := keyLe (sortKeyD a) (sortKeyD b)

/-- `trades_list.sort(key=parse_trade_datetime)` (server.py:1025): a stable
ascending sort by the derived key. -/
def sortTrades (ts : List Trade) : List Trade := ts.mergeSort tradeLe

/-- The row offsets assigned in the per-trade loop (server.py:1190-1204):
the i-th trade in sorted order (0-based) is written at offset `1 + i`. -/
def loggedOffsets (ts : List Trade) : List (Trade × Nat) :=
  (sortTrades ts).enum.map fun p => (p.2, 1 + p.1)

/-! ## Concrete fixtures used by the claim witnesses and counterexamples -/

/-- All strings `map_strategy_name` can return besides its own input: the
short codes, the mapping-table values, and the keyword-rule codes. -/
def resultCodes : List String :=
  SHORT_CODES ++ STRATEGY_MAPPING.map Prod.snd ++ STRATEGY_KEYWORDS.map Prod.snd

/-- A store whose worksheet has `X` in row 2 of the search column and whose
PATCH of cell `F2` fails. -/
def c4Store : Store :=
  ⟨none, .ok 3, .ok [[.vStr "a"], [.vStr "X"], [.vStr "b"]],
    fun a _ => if a == "F2" then some "boom" else none⟩

/-- A store whose search column contains no matching value. -/
def c9Store : Store :=
  ⟨none, .ok 2, .ok [[.vStr "a"], [.vStr "b"]], fun _ _ => none⟩

/-- A store that rejects every cell write. -/
def c10Store : Store :=
  ⟨none, .ok 1, .ok [[.vStr "X"]], fun _ _ => some "denied"⟩

/-- The spec's expired-trade example: `{open_date: "1/2/2026", debit: 0}`. -/
def c2ExampleTrade : Trade := [("open_date", .vStr "1/2/2026"), ("debit", .vInt 0)]

/-- The same trade with an explicit close time supplied. -/
def c2CtrTrade : Trade :=
  [("open_date", .vStr "1/2/2026"), ("debit", .vInt 0), ("close_time", .vStr "2:00 PM")]

/-- The row values `excel_log_trades` constructs for `c2ExampleTrade`. -/
def c2ExampleValues : List PyVal :=
  [.vStr "1/2/2026", .vStr "", .vStr "1/2/2026", .vStr "4:00 PM", .vStr "",
    .vStr "", .vInt 0, .vStr "", .vStr "", .vStr "", .vStr "", .vStr "", .vStr ""]

/-- The spec's chronological-ordering example: trades opened 1/3 9:00 AM,
1/2 3:00 PM, 1/3 8:00 AM. -/
def c3ExampleTrades : List Trade :=
  [[("open_date", .vStr "1/3/2026"), ("open_time", .vStr "9:00 AM")],
   [("open_date", .vStr "1/2/2026"), ("open_time", .vStr "3:00 PM")],
   [("open_date", .vStr "1/3/2026"), ("open_time", .vStr "8:00 AM")]]

/-! # Theorems -/

/-! ## Calendar round-trip machinery -/

/-- `fromOrdinal` inverts `daysBeforeYear y + doy` onto the month/day search,
for any in-range year and day-of-year. -/
theorem fromOrdinal_daysBeforeYear (y doy : Nat) (h1 : 1 ≤ y) (h2 : y ≤ 9999)
    (h3 : 1 ≤ doy) (h4 : doy ≤ 365 + leapBit y) :
    fromOrdinal (daysBeforeYear y + doy) = monthDayFromDoy y doy := by
  obtain ⟨A, ar, hA, harb⟩ : ∃ A ar, y - 1 = 400 * A + ar ∧ ar < 400 :=
    ⟨(y - 1) / 400, (y - 1) % 400, by omega, by omega⟩
  obtain ⟨B, br, hB, hbrb⟩ : ∃ B br, ar = 100 * B + br ∧ br < 100 :=
    ⟨ar / 100, ar % 100, by omega, by omega⟩
  obtain ⟨C, cr, hC, hcrb⟩ : ∃ C cr, br = 4 * C + cr ∧ cr < 4 :=
    ⟨br / 4, br % 4, by omega, by omega⟩
  have hn0 : daysBeforeYear y + doy - 1 =
      146097 * A + (36524 * B + (1461 * C + (365 * cr + (doy - 1)))) := by
    unfold daysBeforeYear; omega
  have hleap : isLeap y = true ↔ (cr = 3 ∧ (C ≠ 24 ∨ B = 3)) := by
    simp only [isLeap, decide_eq_true_eq]; omega
  have hdoyb : doy ≤ 365 ∨ (doy = 366 ∧ cr = 3 ∧ (C ≠ 24 ∨ B = 3)) := by
    unfold leapBit at h4
    by_cases hl : isLeap y = true
    · rw [if_pos hl] at h4
      rw [hleap] at hl
      omega
    · rw [if_neg hl] at h4
      omega
  simp only [fromOrdinal]
  rw [hn0]
  rcases hdoyb with hdy | ⟨hdy, hcr3, hCB⟩
  · -- ordinary day of the year: the four quotients recover (A, B, C, cr)
    have e1 : (146097 * A + (36524 * B + (1461 * C + (365 * cr + (doy - 1))))) / 146097 = A := by
      omega
    have e2 : (146097 * A + (36524 * B + (1461 * C + (365 * cr + (doy - 1))))) % 146097 =
        36524 * B + (1461 * C + (365 * cr + (doy - 1))) := by omega
    have e3 : (36524 * B + (1461 * C + (365 * cr + (doy - 1)))) / 36524 = B := by omega
    have e4 : (36524 * B + (1461 * C + (365 * cr + (doy - 1)))) % 36524 =
        1461 * C + (365 * cr + (doy - 1)) := by omega
    have e5 : (1461 * C + (365 * cr + (doy - 1))) / 1461 = C := by omega
    have e6 : (1461 * C + (365 * cr + (doy - 1))) % 1461 = 365 * cr + (doy - 1) := by omega
    have e7 : (365 * cr + (doy - 1)) / 365 = cr := by omega
    have e8 : (365 * cr + (doy - 1)) % 365 = doy - 1 := by omega
    rw [e1, e2, e3, e4, e5, e6, e7, e8]
    rw [if_neg (by omega)]
    have hy : 400 * A + 100 * B + 4 * C + cr + 1 = y := by omega
    have hd : doy - 1 + 1 = doy := by omega
    rw [hy, hd]
  · rcases eq_or_ne C 24 with hC24 | hC24
    · -- December 31st of a year divisible by 400: the `n100 = 4` special case
      have hB3 : B = 3 := by tauto
      subst hC24 hB3 hdy hcr3
      have e2 : (146097 * A + (36524 * 3 + (1461 * 24 + (365 * 3 + (366 - 1))))) % 146097 =
          146096 := by omega
      have e1 : (146097 * A + (36524 * 3 + (1461 * 24 + (365 * 3 + (366 - 1))))) / 146097 =
          A := by omega
      rw [e1, e2]
      rw [if_pos (by norm_num)]
      have hlt : isLeap y = true := by rw [hleap]; omega
      have hlb : leapBit y = 1 := by unfold leapBit; rw [hlt]; rfl
      have hm : monthDayFromDoy y 366 = ⟨y, 12, 31⟩ := by
        unfold monthDayFromDoy; rw [hlb]; rfl
      rw [hm]
      have hy : 400 * A + 100 * (146096 / 36524) + 4 * (146096 % 36524 / 1461) +
          146096 % 36524 % 1461 / 365 = y := by omega
      rw [hy]
    · -- December 31st of an ordinary leap year: the `n1 = 4` special case
      have e1 : (146097 * A + (36524 * B + (1461 * C + (365 * cr + (doy - 1))))) / 146097 =
          A := by omega
      have e2 : (146097 * A + (36524 * B + (1461 * C + (365 * cr + (doy - 1))))) % 146097 =
          36524 * B + (1461 * C + (365 * cr + (doy - 1))) := by omega
      have e3 : (36524 * B + (1461 * C + (365 * cr + (doy - 1)))) / 36524 = B := by omega
      have e4 : (36524 * B + (1461 * C + (365 * cr + (doy - 1)))) % 36524 =
          1461 * C + (365 * cr + (doy - 1)) := by omega
      have e5 : (1461 * C + (365 * cr + (doy - 1))) / 1461 = C := by omega
      have e6 : (1461 * C + (365 * cr + (doy - 1))) % 1461 = 365 * cr + (doy - 1) := by omega
      have e7 : (365 * cr + (doy - 1)) / 365 = 4 := by omega
      rw [e1, e2, e3, e4, e5, e6, e7]
      rw [if_pos (by omega)]
      have hlt : isLeap y = true := by rw [hleap]; omega
      have hlb : leapBit y = 1 := by unfold leapBit; rw [hlt]; rfl
      have hm : monthDayFromDoy y doy = ⟨y, 12, 31⟩ := by
        subst hdy; unfold monthDayFromDoy; rw [hlb]; rfl
      rw [hm]
      have hy : 400 * A + 100 * B + 4 * C + 4 = y := by omega
      rw [hy]

/-- The month/day search inverts `daysBeforeMonthL l m + d` on its finite
domain. -/
theorem monthDayFromDoyL_daysBeforeMonthL :
    ∀ l < 2, ∀ m < 13, ∀ d < 32, (1 ≤ m ∧ 1 ≤ d ∧ d ≤ daysInMonthL l m) →
      monthDayFromDoyL l (daysBeforeMonthL l m + d) = (m, d) := by decide

/-- A valid (month, day) pair yields a day-of-year in `[1, 365 + l]`. -/
theorem doyL_bounds :
    ∀ l < 2, ∀ m < 13, ∀ d < 32, (1 ≤ m ∧ 1 ≤ d ∧ d ≤ daysInMonthL l m) →
      1 ≤ daysBeforeMonthL l m + d ∧ daysBeforeMonthL l m + d ≤ 365 + l := by decide

/-- No month is longer than 31 days. -/
theorem daysInMonthL_le : ∀ l < 2, ∀ m < 13, daysInMonthL l m ≤ 31 := by decide

/-- The leap bit is 0 or 1. -/
theorem leapBit_le (y : Nat) : leapBit y ≤ 1 := by
  unfold leapBit; split <;> omega

/-- Years from 1900 on start at least 693595 days after the calendar epoch. -/
theorem dby_lower (y : Nat) (h : 1900 ≤ y) : 693595 ≤ daysBeforeYear y := by
  obtain ⟨A, ar, hA, harb⟩ : ∃ A ar, y - 1 = 400 * A + ar ∧ ar < 400 :=
    ⟨(y - 1) / 400, (y - 1) % 400, by omega, by omega⟩
  obtain ⟨B, br, hB, hbrb⟩ : ∃ B br, ar = 100 * B + br ∧ br < 100 :=
    ⟨ar / 100, ar % 100, by omega, by omega⟩
  obtain ⟨C, cr, hC, hcrb⟩ : ∃ C cr, br = 4 * C + cr ∧ cr < 4 :=
    ⟨br / 4, br % 4, by omega, by omega⟩
  have h1 : daysBeforeYear y = 146097 * A + (36524 * B + (1461 * C + 365 * cr)) := by
    unfold daysBeforeYear; omega
  have hA4 : 4 ≤ A := by omega
  rcases eq_or_ne A 4 with h4 | h5
  · subst h4
    have hB3 : B < 4 := by omega
    interval_cases B <;> omega
  · omega

/-- Adding back the epoch ordinal and truncating to `Nat` is the identity on
ordinals at or above the epoch. -/
theorem epoch_toNat (t : Nat) (h : 693594 ≤ t) :
    ((693594 : Int) + ((t : Int) - (693594 : Int))).toNat = t := by omega

/-- Claim C6: for every calendar date D between 1900-01-01 and 9999-12-31
inclusive, `excel_serial_to_date (date_to_excel_serial D) = D` — the Excel
date-serial conversion round-trips exactly. -/
theorem claim_c6 (y m d : Nat) (hy1 : 1900 ≤ y) (hy2 : y ≤ 9999) (hm1 : 1 ≤ m)
    (hm2 : m ≤ 12) (hd1 : 1 ≤ d) (hd2 : d ≤ daysInMonth y m) :
    excel_serial_to_date (date_to_excel_serial ⟨y, m, d⟩) = ⟨y, m, d⟩ := by
  have hlb : leapBit y ≤ 1 := leapBit_le y
  have hd2' : d ≤ daysInMonthL (leapBit y) m := hd2
  have hd31 : d ≤ 31 :=
    le_trans hd2' (daysInMonthL_le (leapBit y) (by omega) m (by omega))
  have hmd := monthDayFromDoyL_daysBeforeMonthL (leapBit y) (by omega) m (by omega) d
    (by omega) ⟨hm1, hd1, hd2'⟩
  have hbounds := doyL_bounds (leapBit y) (by omega) m (by omega) d (by omega)
    ⟨hm1, hd1, hd2'⟩
  have hepoch : excelEpochOrdinal = 693594 := by decide
  have htoord : toOrdinal ⟨y, m, d⟩ =
      daysBeforeYear y + (daysBeforeMonthL (leapBit y) m + d) := by
    show daysBeforeYear y + daysBeforeMonthL (leapBit y) m + d = _
    omega
  have hord_ge : 693594 ≤ toOrdinal ⟨y, m, d⟩ := by
    have := dby_lower y hy1
    omega
  have hser : excel_serial_to_date (date_to_excel_serial ⟨y, m, d⟩) =
      fromOrdinal (toOrdinal ⟨y, m, d⟩) := by
    unfold excel_serial_to_date date_to_excel_serial
    rw [hepoch]
    congr 1
    exact epoch_toNat _ hord_ge
  rw [hser, htoord,
    fromOrdinal_daysBeforeYear y (daysBeforeMonthL (leapBit y) m + d) (by omega) (by omega)
      hbounds.1 hbounds.2]
  show (⟨y, (monthDayFromDoyL (leapBit y) (daysBeforeMonthL (leapBit y) m + d)).1,
    (monthDayFromDoyL (leapBit y) (daysBeforeMonthL (leapBit y) m + d)).2⟩ : PDate) = _
  rw [hmd]

/-- Claim C6 witness: the round-trip at the concrete date 2025-12-22. -/
theorem claim_c6_witness :
    1900 ≤ 2025 ∧ 2025 ≤ 9999 ∧ 1 ≤ 12 ∧ 12 ≤ 12 ∧ 1 ≤ 22 ∧ 22 ≤ daysInMonth 2025 12 ∧
      excel_serial_to_date (date_to_excel_serial ⟨2025, 12, 22⟩) = ⟨2025, 12, 22⟩ :=
  ⟨by decide, by decide, by decide, by decide, by decide, by decide,
    claim_c6 2025 12 22 (by decide) (by decide) (by decide) (by decide) (by decide) (by decide)⟩

/-! ## Date parsing and value equivalence (claims C8, C1) -/

/-- Claim C8: `parse_date_string` tries `MM/DD/YYYY`, `YYYY-MM-DD`,
`DD-MM-YYYY`, `MM-DD-YYYY`, `YYYY/MM/DD` in that fixed order with the first
success winning: "12/22/2025", "2025-12-22" and "22-12-2025" all parse to
2025-12-22, "not a date" parses to nothing, and "01-02-2025" parses as
day-month-year (2025-02-01) even though the later month-day-year format would
also match — the earlier format wins. -/
theorem claim_c8 :
    parse_date_string "12/22/2025" = some ⟨2025, 12, 22⟩ ∧
    parse_date_string "2025-12-22" = some ⟨2025, 12, 22⟩ ∧
    parse_date_string "22-12-2025" = some ⟨2025, 12, 22⟩ ∧
    parse_date_string "not a date" = none ∧
    parse_date_string "01-02-2025" = some ⟨2025, 2, 1⟩ := by
  refine ⟨?_, ?_, ?_, ?_, ?_⟩ <;> decide

/-- Claim C1 counterexample: `compare_values_for_search 46014 "12/22/2025"`
is false — 46014 is not the serial of 2025-12-22 under the 1899-12-30 epoch
(the correct serial is 46013), so the claimed equivalence fails. -/
theorem claim_c1_counterexample :
    compare_values_for_search (.vInt 46014) "12/22/2025" = false ∧
    date_to_excel_serial ⟨2025, 12, 22⟩ ≠ 46014 := by
  refine ⟨?_, ?_⟩ <;> decide

/-- The `int()` truncation of a nonnegative rational is its floor. -/
theorem pyTrunc_eq_floor (q : ℚ) (h : 0 ≤ q) : pyTrunc q = ⌊q⌋ := by
  unfold pyTrunc
  rw [Rat.floor_def]
  exact Int.tdiv_eq_ediv (Rat.num_nonneg.mpr h) (Int.ofNat_nonneg q.den)

/-- Claim C1 (amended): `compare_values_for_search 46013 "12/22/2025"` is
true — 46013 is the serial of 2025-12-22 under the fixed epoch 1899-12-30,
two days before 1900-01-01 — and in general any numeric cell value in
`[1, 2958465]` whose `int()` truncation (the floor, for these positive
serials) equals the serial of the parsed, date-shaped reference matches
that reference. -/
theorem claim_c1 :
    date_to_excel_serial ⟨2025, 12, 22⟩ = 46013 ∧
    compare_values_for_search (.vInt 46013) "12/22/2025" = true ∧
    (∀ (v : PyVal) (q : ℚ) (s : String) (dt : PDate),
      is_likely_date_string s = true → parse_date_string s = some dt →
      pyFloat v = some q → 1 ≤ q → q ≤ 2958465 →
      pyTrunc q = date_to_excel_serial dt →
      compare_values_for_search v s = true) := by
  refine ⟨by decide, by decide, ?_⟩
  intro v q s dt hshape hparse hfloat hlo hhi hser
  have hnn : ¬v = .vNone := by
    intro hv
    rw [hv] at hfloat
    cases hfloat
  unfold compare_values_for_search
  rw [if_neg hnn]
  by_cases hstr : pyStr v == s
  · rw [if_pos hstr]
  · rw [if_neg hstr]
    simp only [hshape, hparse, hfloat, if_true]
    rw [hser]
    simp [hlo, hhi]

/-! ## Strategy mapping idempotence (claim C7) -/

/-- Every string `map_strategy_name` can return besides its input is a fixed
point of `map_strategy_name`. -/
theorem resultCodes_fixed : ∀ c ∈ resultCodes, map_strategy_name c = c := by decide

/-- `map_strategy_name` either returns its input or one of the canonical
result codes. -/
theorem map_strategy_name_result (x : String) :
    map_strategy_name x = x ∨ map_strategy_name x ∈ resultCodes := by
  by_cases hx : x = ""
  · left; rw [hx]; rfl
  · unfold map_strategy_name
    rw [if_neg hx]
    cases h1 : SHORT_CODES.find?
        (fun code => charTrim (x.data.map Char.toLower) == code.data.map Char.toLower) with
    | some code =>
      right
      simp only [h1]
      unfold resultCodes
      exact List.mem_append_left _ (List.mem_append_left _ (List.mem_of_find?_eq_some h1))
    | none =>
      simp only [h1]
      cases h2 : STRATEGY_MAPPING.find?
          (fun p => p.1.data == charTrim (x.data.map Char.toLower)) with
      | some p =>
        right
        simp only [h2]
        unfold resultCodes
        exact List.mem_append_left _
          (List.mem_append_right _ (List.mem_map_of_mem Prod.snd (List.mem_of_find?_eq_some h2)))
      | none =>
        simp only [h2]
        cases h3 : STRATEGY_KEYWORDS.find?
            (fun r => r.1.all fun kw => charsContain (charTrim (x.data.map Char.toLower)) kw.data) with
        | some r =>
          right
          simp only [h3]
          unfold resultCodes
          exact List.mem_append_right _
            (List.mem_map_of_mem Prod.snd (List.mem_of_find?_eq_some h3))
        | none =>
          left
          simp only [h3]

/-- Claim C7: `map_strategy_name` is idempotent — every canonical short code
appearing as a value of the mapping table is a fixed point, and mapping any
string twice equals mapping it once (covering codes such as `VCDS` reachable
only through the keyword fallback). -/
theorem claim_c7 :
    (STRATEGY_MAPPING.all fun p => map_strategy_name p.2 == p.2) = true ∧
    ∀ x : String, map_strategy_name (map_strategy_name x) = map_strategy_name x := by
  refine ⟨by decide, fun x => ?_⟩
  rcases map_strategy_name_result x with h | h
  · rw [h]; exact h
  · exact resultCodes_fixed _ h

/-! ## Chronological trade ordering (claim C3) -/

/-- Digit-run evaluation is bounded by the power of ten of its length. -/
theorem digitsVal_aux (cs : List Char) :
    ∀ a : Nat, cs.all Char.isDigit = true →
      cs.foldl (fun a c => 10 * a + (c.toNat - 48)) a < (a + 1) * 10 ^ cs.length := by
  induction cs with
  | nil => intro a _; simp
  | cons c cs ih =>
    intro a h
    simp only [List.all_cons, Bool.and_eq_true] at h
    have hd : c.toNat - 48 ≤ 9 := by
      obtain ⟨h1, h2⟩ := (by simpa only [Char.isDigit, Bool.and_eq_true,
        decide_eq_true_eq] using h.1 : c.val ≥ 48 ∧ c.val ≤ 57)
      have : c.val.toNat ≤ 57 := h2
      unfold Char.toNat
      omega
    have hrec := ih (10 * a + (c.toNat - 48)) h.2
    simp only [List.foldl_cons, List.length_cons]
    refine lt_of_lt_of_le hrec ?_
    rw [pow_succ]
    calc (10 * a + (c.toNat - 48) + 1) * 10 ^ cs.length
        ≤ ((a + 1) * 10) * 10 ^ cs.length :=
          Nat.mul_le_mul_right _ (by omega)
      _ = (a + 1) * (10 ^ cs.length * 10) := by ring

/-- A digit run denotes a value below `10 ^ length`. -/
theorem digitsVal_lt (cs : List Char) (h : cs.all Char.isDigit = true) :
    digitsVal cs < 10 ^ cs.length := by
  have := digitsVal_aux cs 0 h
  simpa [digitsVal] using this

/-- A `%Y` field is a four-digit year, hence at most 9999. -/
theorem yearField?_bounds (cs : List Char) (y : Nat) (h : yearField? cs = some y) :
    y ≤ 9999 := by
  unfold yearField? at h
  split_ifs at h with hc
  · injection h with h
    subst h
    have := digitsVal_lt cs hc.2
    rw [hc.1] at this
    norm_num at this
    omega

/-- A constructed date has in-range components. -/
theorem mkDate?_bounds (y m d : Nat) (dt : PDate) (hy : y ≤ 9999)
    (h : mkDate? y m d = some dt) :
    1 ≤ dt.year ∧ dt.year ≤ 9999 ∧ 1 ≤ dt.month ∧ dt.month ≤ 12 ∧
      1 ≤ dt.day ∧ dt.day ≤ 31 := by
  unfold mkDate? at h
  split_ifs at h with hc
  · injection h with h
    subst h
    have hlb := leapBit_le y
    have := daysInMonthL_le (leapBit y) (by omega) m (by omega)
    have hdim : d ≤ daysInMonth y m := hc.2.2.2.2
    unfold daysInMonth at hdim
    exact ⟨hc.1, hy, hc.2.1, hc.2.2.1, hc.2.2.2.1, (show d ≤ 31 by omega)⟩

/-- Dates produced by the month/day/year format parser are in range. -/
theorem tryFormatMDY_bounds (sep : Char) (cs : List Char) (dt : PDate)
    (h : tryFormatMDY sep cs = some dt) :
    1 ≤ dt.year ∧ dt.year ≤ 9999 ∧ 1 ≤ dt.month ∧ dt.month ≤ 12 ∧
      1 ≤ dt.day ∧ dt.day ≤ 31 := by
  unfold tryFormatMDY at h
  split at h
  next ms ds ys heq =>
    rcases hm : fieldNat? 2 1 12 ms with _ | m <;>
      rcases hd : fieldNat? 2 1 31 ds with _ | d <;>
        rcases hy : yearField? ys with _ | y <;>
          rw [hm, hd, hy] at h <;>
            first
              | exact mkDate?_bounds y m d dt (yearField?_bounds ys y hy) h
              | exact absurd h (by simp)
  next => cases h

/-- Dates produced by the year/month/day format parser are in range. -/
theorem tryFormatYMD_bounds (sep : Char) (cs : List Char) (dt : PDate)
    (h : tryFormatYMD sep cs = some dt) :
    1 ≤ dt.year ∧ dt.year ≤ 9999 ∧ 1 ≤ dt.month ∧ dt.month ≤ 12 ∧
      1 ≤ dt.day ∧ dt.day ≤ 31 := by
  unfold tryFormatYMD at h
  split at h
  next ys ms ds heq =>
    rcases hy : yearField? ys with _ | y <;>
      rcases hm : fieldNat? 2 1 12 ms with _ | m <;>
        rcases hd : fieldNat? 2 1 31 ds with _ | d <;>
          rw [hy, hm, hd] at h <;>
            first
              | exact mkDate?_bounds y m d dt (yearField?_bounds ys y hy) h
              | exact absurd h (by simp)
  next => cases h

/-- Dates produced by the day/month/year format parser are in range. -/
theorem tryFormatDMY_bounds (sep : Char) (cs : List Char) (dt : PDate)
    (h : tryFormatDMY sep cs = some dt) :
    1 ≤ dt.year ∧ dt.year ≤ 9999 ∧ 1 ≤ dt.month ∧ dt.month ≤ 12 ∧
      1 ≤ dt.day ∧ dt.day ≤ 31 := by
  unfold tryFormatDMY at h
  split at h
  next ds ms ys heq =>
    rcases hd : fieldNat? 2 1 31 ds with _ | d <;>
      rcases hm : fieldNat? 2 1 12 ms with _ | m <;>
        rcases hy : yearField? ys with _ | y <;>
          rw [hd, hm, hy] at h <;>
            first
              | exact mkDate?_bounds y m d dt (yearField?_bounds ys y hy) h
              | exact absurd h (by simp)
  next => cases h

/-- Every date `parse_date_string` produces has in-range components. -/
theorem parse_date_string_bounds (s : String) (dt : PDate)
    (h : parse_date_string s = some dt) :
    1 ≤ dt.year ∧ dt.year ≤ 9999 ∧ 1 ≤ dt.month ∧ dt.month ≤ 12 ∧
      1 ≤ dt.day ∧ dt.day ≤ 31 := by
  unfold parse_date_string at h
  rcases (Option.orElse_eq_some _ _ _).mp h with h1 | ⟨_, h⟩
  · exact tryFormatMDY_bounds _ _ _ h1
  rcases (Option.orElse_eq_some _ _ _).mp h with h1 | ⟨_, h⟩
  · exact tryFormatYMD_bounds _ _ _ h1
  rcases (Option.orElse_eq_some _ _ _).mp h with h1 | ⟨_, h⟩
  · exact tryFormatDMY_bounds _ _ _ h1
  rcases (Option.orElse_eq_some _ _ _).mp h with h1 | ⟨_, h⟩
  · exact tryFormatMDY_bounds _ _ _ h1
  · exact tryFormatYMD_bounds _ _ _ h

/-- Years up to 9999 stay below the ordinal of 9999-01-01. -/
theorem dby_upper (y : Nat) (h : y ≤ 9999) : daysBeforeYear y ≤ 3651694 := by
  obtain ⟨A, ar, hA, harb⟩ : ∃ A ar, y - 1 = 400 * A + ar ∧ ar < 400 :=
    ⟨(y - 1) / 400, (y - 1) % 400, by omega, by omega⟩
  obtain ⟨B, br, hB, hbrb⟩ : ∃ B br, ar = 100 * B + br ∧ br < 100 :=
    ⟨ar / 100, ar % 100, by omega, by omega⟩
  obtain ⟨C, cr, hC, hcrb⟩ : ∃ C cr, br = 4 * C + cr ∧ cr < 4 :=
    ⟨br / 4, br % 4, by omega, by omega⟩
  have h1 : daysBeforeYear y = 146097 * A + (36524 * B + (1461 * C + 365 * cr)) := by
    unfold daysBeforeYear; omega
  have hA24 : A ≤ 24 := by omega
  rcases eq_or_ne A 24 with h24 | h24
  · subst h24
    have hB3 : B < 4 := by omega
    interval_cases B <;> interval_cases cr <;> omega
  · omega

/-- Days-before-month is at most 335. -/
theorem daysBeforeMonthL_le : ∀ l < 2, ∀ m < 13, daysBeforeMonthL l m ≤ 335 := by decide

/-- Leap years up to 9999 stay below the ordinal of 9996-01-01's year start. -/
theorem dby_upper_leap (y : Nat) (h : y ≤ 9999) (hl : isLeap y = true) :
    daysBeforeYear y ≤ 3650598 := by
  obtain ⟨A, ar, hA, harb⟩ : ∃ A ar, y - 1 = 400 * A + ar ∧ ar < 400 :=
    ⟨(y - 1) / 400, (y - 1) % 400, by omega, by omega⟩
  obtain ⟨B, br, hB, hbrb⟩ : ∃ B br, ar = 100 * B + br ∧ br < 100 :=
    ⟨ar / 100, ar % 100, by omega, by omega⟩
  obtain ⟨C, cr, hC, hcrb⟩ : ∃ C cr, br = 4 * C + cr ∧ cr < 4 :=
    ⟨br / 4, br % 4, by omega, by omega⟩
  have h1 : daysBeforeYear y = 146097 * A + (36524 * B + (1461 * C + 365 * cr)) := by
    unfold daysBeforeYear; omega
  simp only [isLeap, decide_eq_true_eq] at hl
  rcases Nat.eq_zero_or_pos y with hy0 | hy0
  · subst hy0
    have : daysBeforeYear 0 = 0 := by decide
    omega
  have hcr : cr = 3 := by omega
  have hC24 : C = 24 → B = 3 := by omega
  have hA24 : A ≤ 24 := by omega
  rcases eq_or_ne A 24 with h24 | h24
  · subst h24
    have hB3 : B < 4 := by omega
    interval_cases B <;> omega
  · omega

/-- Days-before-month in a non-leap year is at most 334. -/
theorem daysBeforeMonthL0_le : ∀ m < 13, daysBeforeMonthL 0 m ≤ 334 := by decide

/-- Every parsed date's key sits strictly below the `datetime.max` key. -/
theorem parsedDateKey_lt (dt : PDate) (h1 : 1 ≤ dt.year) (h2 : dt.year ≤ 9999)
    (h3 : dt.month ≤ 12) (h4 : dt.day ≤ 31) : 2 * toOrdinal dt < maxDateKey := by
  obtain ⟨y, m, d⟩ := dt
  dsimp only at h1 h2 h3 h4
  have hmax : maxDateKey = 2 * 3652059 + 1 := by decide
  have hord : toOrdinal ⟨y, m, d⟩ =
      daysBeforeYear y + (daysBeforeMonthL (leapBit y) m + d) := by
    show daysBeforeYear y + daysBeforeMonthL (leapBit y) m + d = _
    omega
  cases hl : isLeap y with
  | false =>
    have hlb : leapBit y = 0 := by unfold leapBit; rw [hl]; rfl
    have hup := dby_upper y h2
    have hdbm := daysBeforeMonthL0_le m (by omega)
    rw [hlb] at hord
    omega
  | true =>
    have hlb : leapBit y = 1 := by unfold leapBit; rw [hl]; rfl
    have hup := dby_upper_leap y h2 hl
    have hdbm := daysBeforeMonthL_le (leapBit y) (by omega) m (by omega)
    omega

/-- The value consumed by `digits12` is bounded by its `lo`/`hi` arguments. -/
theorem digits12_le (cs : List Char) (lo hi : Nat) (v : Nat) (r : List Char)
    (h : digits12 cs lo hi = some (v, r)) : lo ≤ v ∧ v ≤ hi := by
  simp only [digits12] at h
  split_ifs at h with h1 h2
  · simp only [Option.some.injEq, Prod.mk.injEq] at h
    rw [← h.1]
    exact ⟨h2.1, h2.2⟩

/-- A 12-hour hour converts to a 24-hour hour below 24. -/
theorem hour24_lt (h : Nat) (pm : Bool) : hour24 h pm < 24 := by
  unfold hour24
  have := Nat.mod_lt h (y := 12) (by omega)
  split <;> omega

/-- `%I:%M %p` parses yield valid second counts. -/
theorem tryTimeIMp_le (sp : Bool) (cs : List Char) (v : Nat)
    (hv : tryTimeIMp sp cs = some v) : v ≤ 86399 := by
  unfold tryTimeIMp at hv
  rcases h1 : digits12 cs 1 12 with _ | hr <;> rw [h1] at hv
  · cases hv
  dsimp only at hv
  rcases h2 : expectChar ':' hr.2 with _ | r2 <;> rw [h2] at hv
  · cases hv
  dsimp only at hv
  rcases h3 : digits12 r2 0 59 with _ | mr <;> rw [h3] at hv
  · cases hv
  dsimp only at hv
  rcases h4 : (if sp then expectWs mr.2 else some mr.2) with _ | r4 <;> rw [h4] at hv
  · cases hv
  dsimp only at hv
  rcases h5 : expectAMPM r4 with _ | pr <;> rw [h5] at hv
  · cases hv
  dsimp only at hv
  split_ifs at hv with h6
  injection hv with hv
  have hh := hour24_lt hr.1 pr.1
  have hm := digits12_le r2 0 59 mr.1 mr.2 (by rw [h3])
  omega

/-- `%H:%M` parses yield valid second counts. -/
theorem tryTimeHM_le (cs : List Char) (v : Nat) (hv : tryTimeHM cs = some v) :
    v ≤ 86399 := by
  unfold tryTimeHM at hv
  rcases h1 : digits12 cs 0 23 with _ | hr <;> rw [h1] at hv
  · cases hv
  dsimp only at hv
  rcases h2 : expectChar ':' hr.2 with _ | r2 <;> rw [h2] at hv
  · cases hv
  dsimp only at hv
  rcases h3 : digits12 r2 0 59 with _ | mr <;> rw [h3] at hv
  · cases hv
  dsimp only at hv
  split_ifs at hv with h4
  injection hv with hv
  have hh := digits12_le cs 0 23 hr.1 hr.2 (by rw [h1])
  have hm := digits12_le r2 0 59 mr.1 mr.2 (by rw [h3])
  omega

/-- `%H:%M:%S` parses yield valid second counts. -/
theorem tryTimeHMS_le (cs : List Char) (v : Nat) (hv : tryTimeHMS cs = some v) :
    v ≤ 86399 := by
  unfold tryTimeHMS at hv
  rcases h1 : digits12 cs 0 23 with _ | hr <;> rw [h1] at hv
  · cases hv
  dsimp only at hv
  rcases h2 : expectChar ':' hr.2 with _ | r2 <;> rw [h2] at hv
  · cases hv
  dsimp only at hv
  rcases h3 : digits12 r2 0 59 with _ | mr <;> rw [h3] at hv
  · cases hv
  dsimp only at hv
  rcases h4 : expectChar ':' mr.2 with _ | r4 <;> rw [h4] at hv
  · cases hv
  dsimp only at hv
  rcases h5 : digits12 r4 0 59 with _ | sr <;> rw [h5] at hv
  · cases hv
  dsimp only at hv
  split_ifs at hv with h6
  injection hv with hv
  have hh := digits12_le cs 0 23 hr.1 hr.2 (by rw [h1])
  have hm := digits12_le r2 0 59 mr.1 mr.2 (by rw [h3])
  have hs := digits12_le r4 0 59 sr.1 sr.2 (by rw [h5])
  omega

/-- `%I:%M:%S %p` parses yield valid second counts. -/
theorem tryTimeIMSp_le (cs : List Char) (v : Nat) (hv : tryTimeIMSp cs = some v) :
    v ≤ 86399 := by
  unfold tryTimeIMSp at hv
  rcases h1 : digits12 cs 1 12 with _ | hr <;> rw [h1] at hv
  · cases hv
  dsimp only at hv
  rcases h2 : expectChar ':' hr.2 with _ | r2 <;> rw [h2] at hv
  · cases hv
  dsimp only at hv
  rcases h3 : digits12 r2 0 59 with _ | mr <;> rw [h3] at hv
  · cases hv
  dsimp only at hv
  rcases h4 : expectChar ':' mr.2 with _ | r4 <;> rw [h4] at hv
  · cases hv
  dsimp only at hv
  rcases h5 : digits12 r4 0 59 with _ | sr <;> rw [h5] at hv
  · cases hv
  dsimp only at hv
  rcases h6 : expectWs sr.2 with _ | r6 <;> rw [h6] at hv
  · cases hv
  dsimp only at hv
  rcases h7 : expectAMPM r6 with _ | pr <;> rw [h7] at hv
  · cases hv
  dsimp only at hv
  split_ifs at hv with h8
  injection hv with hv
  have hh := hour24_lt hr.1 pr.1
  have hm := digits12_le r2 0 59 mr.1 mr.2 (by rw [h3])
  have hs := digits12_le r4 0 59 sr.1 sr.2 (by rw [h5])
  omega

/-- Every parsed time is a valid second count of a day. -/
theorem parse_time_string_le (s : String) (sec : Nat)
    (h : parse_time_string s = some sec) : sec ≤ 86399 := by
  unfold parse_time_string at h
  rcases (Option.orElse_eq_some _ _ _).mp h with h1 | ⟨_, h⟩
  · exact tryTimeIMp_le _ _ _ h1
  rcases (Option.orElse_eq_some _ _ _).mp h with h1 | ⟨_, h⟩
  · exact tryTimeIMp_le _ _ _ h1
  rcases (Option.orElse_eq_some _ _ _).mp h with h1 | ⟨_, h⟩
  · exact tryTimeHM_le _ _ h1
  rcases (Option.orElse_eq_some _ _ _).mp h with h1 | ⟨_, h⟩
  · exact tryTimeHMS_le _ _ h1
  · exact tryTimeIMSp_le _ _ h

/-- The date sort-key of a string field: the parsed date's key, or the
`datetime.max` key when the string is empty or unparsable — never an
exception. -/
theorem dateKeyOfVal_str (s : String) :
    dateKeyOfVal (.vStr s) =
      some (match parse_date_string s with
        | some dt => 2 * toOrdinal dt
        | none => maxDateKey) := by
  unfold dateKeyOfVal
  by_cases hs : s = ""
  · subst hs; decide
  · have h1 : pyTruthy (.vStr s) = true := by simp [pyTruthy, hs]
    rw [if_neg (by rw [h1]; simp)]

/-- The time sort-key of a string field: the parsed time's key, or the
`time.max` key when the string is empty or unparsable — never an
exception. -/
theorem timeKeyOfVal_str (s : String) :
    timeKeyOfVal (.vStr s) =
      some (match parse_time_string s with
        | some sec => 2 * sec
        | none => maxTimeKey) := by
  unfold timeKeyOfVal
  by_cases hs : s = ""
  · subst hs; decide
  · have h1 : pyTruthy (.vStr s) = true := by simp [pyTruthy, hs]
    rw [if_neg (by rw [h1]; simp)]

/-- The trade ordering is transitive. -/
theorem tradeLe_trans (a b c : Trade) (h1 : tradeLe a b = true)
    (h2 : tradeLe b c = true) : tradeLe a c = true := by
  unfold tradeLe keyLe at *
  simp only [Bool.or_eq_true, Bool.and_eq_true, decide_eq_true_eq] at *
  omega

/-- The trade ordering is total. -/
theorem tradeLe_total (a b : Trade) : (tradeLe a b || tradeLe b a) = true := by
  unfold tradeLe keyLe
  simp only [Bool.or_eq_true, Bool.and_eq_true, decide_eq_true_eq]
  omega

/-- Claim C3: for every input trade list, the per-trade loop of
`excel_log_trades` runs over the trades in ascending order of the
`(parsedOpenDate, parsedOpenTime)` key — the sorted list is a permutation of
the input, and the i-th trade in sorted order gets row offset i (first trade
offset 1) — and a string open date (or time) that fails to parse receives the
`datetime.max` (or `time.max`) key, strictly above every parsed key, instead
of raising. -/
theorem claim_c3 :
    (∀ ts : List Trade,
      List.Pairwise (fun a b => tradeLe a b = true) (sortTrades ts) ∧
      (sortTrades ts).Perm ts ∧
      (loggedOffsets ts).map Prod.snd = List.range' 1 ts.length) ∧
    (∀ s : String, dateKeyOfVal (.vStr s) =
      some (match parse_date_string s with
        | some dt => 2 * toOrdinal dt
        | none => maxDateKey)) ∧
    (∀ s dt, parse_date_string s = some dt → 2 * toOrdinal dt < maxDateKey) ∧
    (∀ s : String, timeKeyOfVal (.vStr s) =
      some (match parse_time_string s with
        | some sec => 2 * sec
        | none => maxTimeKey)) ∧
    (∀ s sec, parse_time_string s = some sec → 2 * sec < maxTimeKey) := by
  refine ⟨fun ts => ⟨?_, ?_, ?_⟩, dateKeyOfVal_str, ?_, timeKeyOfVal_str, ?_⟩
  · exact List.sorted_mergeSort
      (fun a b c => tradeLe_trans a b c) (fun a b => tradeLe_total a b) ts
  · exact List.mergeSort_perm ts tradeLe
  · unfold loggedOffsets
    rw [List.map_map]
    have h1 : (Prod.snd ∘ fun p : Nat × Trade => (p.2, 1 + p.1)) =
        ((fun x => 1 + x) ∘ Prod.fst) := rfl
    rw [h1, ← List.map_map, List.enum_map_fst, ← List.range'_eq_map_range]
    have h2 : (sortTrades ts).length = ts.length :=
      (List.mergeSort_perm ts tradeLe).length_eq
    rw [h2]
  · intro s dt h
    obtain ⟨b1, b2, b3, b4, b5, b6⟩ := parse_date_string_bounds s dt h
    exact parsedDateKey_lt dt b1 b2 b4 b6
  · intro s sec h
    have := parse_time_string_le s sec h
    unfold maxTimeKey
    omega

/-- Claim C3 witness: the ordering facts instantiated at the spec's
three-trade example, and the unparsable-date sentinel at a concrete
garbage string. -/
theorem claim_c3_witness :
    List.Pairwise (fun a b => tradeLe a b = true) (sortTrades c3ExampleTrades) ∧
    (sortTrades c3ExampleTrades).Perm c3ExampleTrades ∧
    (loggedOffsets c3ExampleTrades).map Prod.snd = List.range' 1 3 ∧
    dateKeyOfVal (.vStr "garbage") = some maxDateKey ∧
    parse_date_string "1/2/2026" = some ⟨2026, 1, 2⟩ ∧
    2 * toOrdinal ⟨2026, 1, 2⟩ < maxDateKey :=
  ⟨(claim_c3.1 c3ExampleTrades).1, (claim_c3.1 c3ExampleTrades).2.1,
    (claim_c3.1 c3ExampleTrades).2.2,
    (claim_c3.2.1 "garbage").trans (by decide), by decide,
    claim_c3.2.2.1 "1/2/2026" ⟨2026, 1, 2⟩ (by decide)⟩
/-- Witness for claim C1: the general rule instantiated at the integer cell
46013 and at the fractional cell 46013.5 (= 92027/2), whose truncation is
46013, both matching the reference "12/22/2025". -/
theorem claim_c1_witness :
    compare_values_for_search (.vInt 46013) "12/22/2025" = true ∧
    compare_values_for_search (.vFloat ((92027 : ℚ) / 2)) "12/22/2025" = true := by
  constructor
  · exact claim_c1.2.2 (.vInt 46013) ((46013 : Int) : ℚ) "12/22/2025" ⟨2025, 12, 22⟩
      (by decide) (by decide) rfl
      (by exact_mod_cast (by decide : (1 : Int) ≤ 46013))
      (by exact_mod_cast (by decide : (46013 : Int) ≤ 2958465))
      (by unfold pyTrunc
          rw [Rat.num_intCast, Rat.den_intCast, Nat.cast_one, Int.tdiv_one]
          decide)
  · exact claim_c1.2.2 (.vFloat ((92027 : ℚ) / 2)) ((92027 : ℚ) / 2) "12/22/2025"
      ⟨2025, 12, 22⟩ (by decide) (by decide) rfl (by norm_num) (by norm_num)
      (by rw [pyTrunc_eq_floor _ (by norm_num),
            show date_to_excel_serial ⟨2025, 12, 22⟩ = 46013 from by decide,
            Int.floor_eq_iff]
          constructor <;> norm_num)

/-! ## Expired-trade inference (claim C2) -/

/-- Counterexample to claim C2 as stated: a trade with no `expired` flag, no
`close_date` and `debit` exactly 0, but a truthy `close_time` of "2:00 PM",
keeps that close time — the constructed row carries "2:00 PM", not
"4:00 PM", at the close-time position (index 3). -/
theorem claim_c2_counterexample :
    List.find? (fun p => p.1 == "expired") c2CtrTrade = none ∧
    List.find? (fun p => p.1 == "close_date") c2CtrTrade = none ∧
    tget c2CtrTrade "debit" (.vStr "") = .vInt 0 ∧
    (processTrade c2CtrTrade).bind (fun vs => vs.get? 3) = some (.vStr "2:00 PM") ∧
    (processTrade c2CtrTrade).bind (fun vs => vs.get? 3) ≠ some (.vStr "4:00 PM") := by
  refine ⟨by decide, by decide, by decide, by decide, by decide⟩

/-- Claim C2 (amended): for every trade with no `expired` field, no
`close_date` field, `debit` exactly 0 and no truthy `close_time`, the
constructed row values carry `close_date` equal to its open date (index 2 of
the value array) and `close_time` equal to "4:00 PM" (index 3). -/
theorem claim_c2 (t : Trade)
    (hexp : List.find? (fun p => p.1 == "expired") t = none)
    (hcd : List.find? (fun p => p.1 == "close_date") t = none)
    (hdeb : tget t "debit" (.vStr "") = .vInt 0)
    (hct : pyTruthy (tget t "close_time" (.vStr "")) = false) :
    ∀ vs, processTrade t = some vs →
      vs.get? 2 = some (tget t "open_date" (tget t "date" (.vStr ""))) ∧
      vs.get? 3 = some (.vStr "4:00 PM") := by
  intro vs h
  have e1 : tget t "expired" (.vBool false) = .vBool false := by
    unfold tget; rw [hexp]
  have e2 : tget t "close_date" (.vStr "") = .vStr "" := by
    unfold tget; rw [hcd]
  unfold processTrade at h
  rcases hm : map_strategy_val (tget t "strategy" (.vStr "")) with _ | mv
  · rw [hm] at h; cases h
  · rw [hm] at h
    dsimp only at h
    rw [e1, e2, hdeb, hct] at h
    simp only [show pyTruthy (.vStr "") = false from rfl,
      show isExpiredOf (.vBool false) = false from rfl,
      show pyEqZero (.vInt 0) = true from rfl,
      Bool.false_eq_true, if_false, if_true, ite_false, ite_true,
      Option.some.injEq] at h
    subst h
    exact ⟨rfl, rfl⟩

/-- Witness for claim C2: the spec's own example trade
`{open_date: "1/2/2026", debit: 0}`. -/
theorem claim_c2_witness :
    c2ExampleValues.get? 2 =
      some (tget c2ExampleTrade "open_date" (tget c2ExampleTrade "date" (.vStr ""))) ∧
    c2ExampleValues.get? 3 = some (.vStr "4:00 PM") :=
  claim_c2 c2ExampleTrade (by decide) (by decide) (by decide) (by decide)
    c2ExampleValues (by decide)

/-! ## The row updater (claims C4, C5, C9, C10) -/

/-- The update loop collects exactly the expected successes and failures and
issues one write call per pair, in order. -/
theorem writeLoop_spec (w : String → PyVal → Option String) (row : Int)
    (pairs : List (String × PyVal)) :
    writeLoop w row pairs =
      (expectedUpdated w row pairs, expectedErrors w row pairs,
        pairs.map fun p => StoreCall.writeCell (cellAddr p.1 row) p.2) := by
  induction pairs with
  | nil => rfl
  | cons p rest ih =>
    obtain ⟨c, v⟩ := p
    simp only [writeLoop, ih, expectedUpdated, expectedErrors, List.filterMap_cons,
      List.map_cons]
    cases hw : w (cellAddr c row) v <;> simp [hw]

/-- Every pair lands in exactly one of the two result lists. -/
theorem expected_lengths (w : String → PyVal → Option String) (row : Int)
    (pairs : List (String × PyVal)) :
    (expectedUpdated w row pairs).length + (expectedErrors w row pairs).length =
      pairs.length := by
  induction pairs with
  | nil => rfl
  | cons p rest ih =>
    obtain ⟨c, v⟩ := p
    simp only [expectedUpdated, expectedErrors, List.filterMap_cons] at ih ⊢
    cases hw : w (cellAddr c row) v <;> simp [hw] <;> omega

/-- If no cell of the search column matches the reference, the scan finds
no row. -/
theorem findRow_eq_none (cvs : List (List PyVal)) (ref : String)
    (h : ∀ row ∈ cvs, compare_values_for_search (cellOf row) ref = false) :
    findRow cvs ref = none := by
  have hidx : (cvs.findIdx? fun row => compare_values_for_search (cellOf row) ref) = none := by
    rw [List.findIdx?_eq_none_iff]
    exact h
  unfold findRow
  rw [hidx]
  rfl

/-- Filtering the issued write calls out of a pure write-call list is the
identity. -/
theorem filter_isWrite_map (row : Int) (pairs : List (String × PyVal)) :
    ((pairs.map fun p => StoreCall.writeCell (cellAddr p.1 row) p.2).filter isWrite) =
      pairs.map fun p => StoreCall.writeCell (cellAddr p.1 row) p.2 := by
  induction pairs with
  | nil => rfl
  | cons p rest ih => simp [isWrite, ih]

/-- Full reduction of the engine once a row is located: the outcome is
decided by the expected error list, and the trace is the three lookup calls
followed by one write per pair. -/
theorem impl_located (store : Store) (sc ref : String) (cols : List String)
    (vals : List PyVal) (off : Int) (rc : Nat) (cvs : List (List PyVal)) (r : Nat)
    (hlen : cols.length = vals.length) (hres : store.resolveResult = none)
    (hur : store.usedRangeResult = .ok rc) (hrc : rc ≠ 0)
    (hread : store.readResult = .ok cvs) (hfind : findRow cvs ref = some r) :
    update_row_by_lookup_impl store sc ref cols vals off =
      ((if (expectedErrors store.writeResult ((r : Int) + off) (cols.zip vals)).isEmpty then
          Outcome.success
            ("Successfully updated " ++ toString vals.length ++ " cells in row " ++
              toString ((r : Int) + off))
            r ((r : Int) + off)
            (expectedUpdated store.writeResult ((r : Int) + off) (cols.zip vals))
        else
          Outcome.partialError "Some cells failed to update"
            (expectedUpdated store.writeResult ((r : Int) + off) (cols.zip vals))
            (expectedErrors store.writeResult ((r : Int) + off) (cols.zip vals))),
        [StoreCall.resolve, StoreCall.usedRange,
          StoreCall.readRange (sc ++ "1:" ++ sc ++ toString rc)] ++
          (cols.zip vals).map fun p =>
            StoreCall.writeCell (cellAddr p.1 ((r : Int) + off)) p.2) := by
  unfold update_row_by_lookup_impl
  rw [if_neg (show ¬cols.length ≠ vals.length from by omega)]
  simp only [hres, hur, hread, hfind, writeLoop_spec]
  rw [if_neg hrc]
  by_cases hie : (expectedErrors store.writeResult ((r : Int) + off)
      (cols.zip vals)).isEmpty = true
  · rw [if_pos hie, if_pos hie]
  · rw [if_neg hie, if_neg hie]

/-- Claim C4: with a located target row, exactly one write is issued per
(column, value) pair — no abort on first error — every pair lands either in
the success list or the failure list, all-success yields the `success`
outcome carrying the written addresses, and a mix of successes and failures
yields `partial_error` carrying both lists. -/
theorem claim_c4 (store : Store) (sc ref : String) (cols : List String)
    (vals : List PyVal) (off : Int) (rc : Nat) (cvs : List (List PyVal)) (r : Nat)
    (hlen : cols.length = vals.length) (hres : store.resolveResult = none)
    (hur : store.usedRangeResult = .ok rc) (hrc : rc ≠ 0)
    (hread : store.readResult = .ok cvs) (hfind : findRow cvs ref = some r) :
    (((update_row_by_lookup_impl store sc ref cols vals off).2.filter isWrite).length =
        cols.length) ∧
    ((expectedUpdated store.writeResult ((r : Int) + off) (cols.zip vals)).length +
        (expectedErrors store.writeResult ((r : Int) + off) (cols.zip vals)).length =
        cols.length) ∧
    (expectedErrors store.writeResult ((r : Int) + off) (cols.zip vals) = [] →
      (update_row_by_lookup_impl store sc ref cols vals off).1 =
        Outcome.success
          ("Successfully updated " ++ toString vals.length ++ " cells in row " ++
            toString ((r : Int) + off))
          r ((r : Int) + off)
          (expectedUpdated store.writeResult ((r : Int) + off) (cols.zip vals))) ∧
    (expectedUpdated store.writeResult ((r : Int) + off) (cols.zip vals) ≠ [] →
      expectedErrors store.writeResult ((r : Int) + off) (cols.zip vals) ≠ [] →
      (update_row_by_lookup_impl store sc ref cols vals off).1 =
        Outcome.partialError "Some cells failed to update"
          (expectedUpdated store.writeResult ((r : Int) + off) (cols.zip vals))
          (expectedErrors store.writeResult ((r : Int) + off) (cols.zip vals))) := by
  have hloc := impl_located store sc ref cols vals off rc cvs r hlen hres hur hrc hread hfind
  have hzip : (cols.zip vals).length = cols.length := by
    rw [List.length_zip, hlen, Nat.min_self]
  have hsum := expected_lengths store.writeResult ((r : Int) + off) (cols.zip vals)
  refine ⟨?_, by omega, fun he => ?_, fun hu he => ?_⟩
  · rw [hloc]
    dsimp only
    rw [List.filter_append,
      show ([StoreCall.resolve, StoreCall.usedRange,
        StoreCall.readRange (sc ++ "1:" ++ sc ++ toString rc)].filter isWrite) = []
        from rfl,
      filter_isWrite_map, List.nil_append, List.length_map, hzip]
  · rw [hloc]
    dsimp only
    rw [if_pos (by rw [he]; rfl)]
  · have hie : (expectedErrors store.writeResult ((r : Int) + off)
        (cols.zip vals)).isEmpty = false := by
      cases hE : expectedErrors store.writeResult ((r : Int) + off) (cols.zip vals) with
      | nil => exact absurd hE he
      | cons a as => rfl
    rw [hloc]
    dsimp only
    rw [hie, if_neg Bool.false_ne_true]

/-- Claim C5: a length mismatch between the target-column list and the value
list is rejected immediately with the caller-error message, and no store
call at all is issued. -/
theorem claim_c5 (store : Store) (sc ref : String) (cols : List String)
    (vals : List PyVal) (off : Int) (h : cols.length ≠ vals.length) :
    update_row_by_lookup_impl store sc ref cols vals off =
      (.errorMsg (mismatchMsg cols.length vals.length), []) := by
  unfold update_row_by_lookup_impl
  rw [if_pos h]

/-- Witness for claim C5: two target columns against three values. -/
theorem claim_c5_witness :
    update_row_by_lookup_impl c4Store "C" "X" ["D", "F"] [.vInt 1, .vInt 2, .vInt 3] 0 =
      (.errorMsg (mismatchMsg 2 3), []) :=
  claim_c5 c4Store "C" "X" ["D", "F"] [.vInt 1, .vInt 2, .vInt 3] 0 (by decide)

/-- Witness for claim C4: a two-cell update against `c4Store`, whose PATCH of
`F2` fails — both writes are attempted and the outcome is `partial_error`
listing the success `D2` and the failure `(F2, boom)`. -/
theorem claim_c4_witness :
    ((update_row_by_lookup_impl c4Store "C" "X" ["D", "F"] [.vInt 1, .vInt 2] 0).2.filter
        isWrite).length = 2 ∧
    (update_row_by_lookup_impl c4Store "C" "X" ["D", "F"] [.vInt 1, .vInt 2] 0).1 =
      .partialError "Some cells failed to update" ["D2"] [("F2", "boom")] := by
  have h := claim_c4 c4Store "C" "X" ["D", "F"] [.vInt 1, .vInt 2] 0 3
    [[.vStr "a"], [.vStr "X"], [.vStr "b"]] 2 rfl rfl rfl (by decide) rfl (by decide)
  exact ⟨h.1, (h.2.2.2 (by decide) (by decide)).trans (by decide)⟩

/-- Claim C9: when no cell of the scanned column is equivalent to the
reference value, the engine returns the not-found diagnostic — a structured
result, not an exception — carrying at most 10 sample values taken from the
top of the scanned column, and issues no cell write. -/
theorem claim_c9 (store : Store) (sc ref : String) (cols : List String)
    (vals : List PyVal) (off : Int) (rc : Nat) (cvs : List (List PyVal))
    (hlen : cols.length = vals.length) (hres : store.resolveResult = none)
    (hur : store.usedRangeResult = .ok rc) (hrc : rc ≠ 0)
    (hread : store.readResult = .ok cvs)
    (hnone : ∀ row ∈ cvs, compare_values_for_search (cellOf row) ref = false) :
    (update_row_by_lookup_impl store sc ref cols vals off).1 =
      .notFound ("Reference value '" ++ ref ++ "' not found in column " ++ sc) rc
        ((cvs.take 10).map sampleOf) ∧
    ((cvs.take 10).map sampleOf).length ≤ 10 ∧
    (update_row_by_lookup_impl store sc ref cols vals off).2.filter isWrite = [] := by
  have hfind := findRow_eq_none cvs ref hnone
  have himpl : update_row_by_lookup_impl store sc ref cols vals off =
      (.notFound ("Reference value '" ++ ref ++ "' not found in column " ++ sc) rc
          ((cvs.take 10).map sampleOf),
        [.resolve, .usedRange, .readRange (sc ++ "1:" ++ sc ++ toString rc)]) := by
    unfold update_row_by_lookup_impl
    rw [if_neg (show ¬cols.length ≠ vals.length from by omega)]
    simp only [hres, hur, hread, hfind]
    rw [if_neg hrc]
  refine ⟨by rw [himpl], ?_, by rw [himpl]; rfl⟩
  rw [List.length_map, List.length_take]
  omega

/-- Witness for claim C9: searching `c9Store` (column cells "a", "b") for the
absent value "Z". -/
theorem claim_c9_witness :
    (update_row_by_lookup_impl c9Store "C" "Z" ["D"] [.vInt 1] 0).1 =
      .notFound "Reference value 'Z' not found in column C" 2 ["a", "b"] ∧
    (update_row_by_lookup_impl c9Store "C" "Z" ["D"] [.vInt 1] 0).2.filter isWrite = [] := by
  have h := claim_c9 c9Store "C" "Z" ["D"] [.vInt 1] 0 2 [[.vStr "a"], [.vStr "b"]]
    rfl rfl rfl (by decide) rfl (by decide)
  exact ⟨h.1.trans (by decide), h.2.2⟩

/-- Claim C10: when at least one write is attempted and every write fails,
the outcome is `partial_error` with an empty updated list and one failure
entry per pair — never the plain `error` status. -/
theorem claim_c10 (store : Store) (sc ref : String) (cols : List String)
    (vals : List PyVal) (off : Int) (rc : Nat) (cvs : List (List PyVal)) (r : Nat)
    (hlen : cols.length = vals.length) (hres : store.resolveResult = none)
    (hur : store.usedRangeResult = .ok rc) (hrc : rc ≠ 0)
    (hread : store.readResult = .ok cvs) (hfind : findRow cvs ref = some r)
    (hcols : cols ≠ [])
    (hall : expectedUpdated store.writeResult ((r : Int) + off) (cols.zip vals) = []) :
    (update_row_by_lookup_impl store sc ref cols vals off).1 =
      .partialError "Some cells failed to update" []
        (expectedErrors store.writeResult ((r : Int) + off) (cols.zip vals)) ∧
    (expectedErrors store.writeResult ((r : Int) + off) (cols.zip vals)).length =
      cols.length ∧
    (∀ msg, (update_row_by_lookup_impl store sc ref cols vals off).1 ≠ .errorMsg msg) := by
  have hloc := impl_located store sc ref cols vals off rc cvs r hlen hres hur hrc hread hfind
  have hzip : (cols.zip vals).length = cols.length := by
    rw [List.length_zip, hlen, Nat.min_self]
  have hsum := expected_lengths store.writeResult ((r : Int) + off) (cols.zip vals)
  have herrlen : (expectedErrors store.writeResult ((r : Int) + off)
      (cols.zip vals)).length = cols.length := by
    rw [hall] at hsum
    simp at hsum
    omega
  have hne : expectedErrors store.writeResult ((r : Int) + off) (cols.zip vals) ≠ [] := by
    intro h0
    rw [h0] at herrlen
    exact hcols (List.length_eq_zero.mp herrlen.symm)
  have hie : (expectedErrors store.writeResult ((r : Int) + off)
      (cols.zip vals)).isEmpty = false := by
    cases hE : expectedErrors store.writeResult ((r : Int) + off) (cols.zip vals) with
    | nil => exact absurd hE hne
    | cons a as => rfl
  refine ⟨?_, herrlen, fun msg => ?_⟩
  · rw [hloc]
    dsimp only
    rw [hie, if_neg Bool.false_ne_true, hall]
  · rw [hloc]
    dsimp only
    rw [hie, if_neg Bool.false_ne_true]
    intro hEq
    cases hEq

/-- Witness for claim C10: a two-cell update against `c10Store`, which
rejects every PATCH — the outcome is `partial_error` with no updated cells
and both failures listed. -/
theorem claim_c10_witness :
    (update_row_by_lookup_impl c10Store "C" "X" ["D", "F"] [.vInt 1, .vInt 2] 0).1 =
      .partialError "Some cells failed to update" []
        [("D1", "denied"), ("F1", "denied")] := by
  have h := claim_c10 c10Store "C" "X" ["D", "F"] [.vInt 1, .vInt 2] 0 1 [[.vStr "X"]] 1
    rfl rfl rfl (by decide) rfl (by decide) (by decide) (by decide)
  exact h.1.trans (by decide)

/-- Witness for claim C7: idempotence instantiated at the long name
"Iron Condor". -/
theorem claim_c7_witness :
    map_strategy_name (map_strategy_name "Iron Condor") = map_strategy_name "Iron Condor" :=
  claim_c7.2 "Iron Condor"
